import Mathlib

/-!
Verification of the ordered work-item processing pipeline (SQS FIFO order
processing sample): a shallow embedding of the OrderManager ingestion
handler, the OrderProcessor queue consumer, the DLQProcessor dead-letter
consumer, and the queue substrate's retry/escalation contract, together
with proofs of the specified invariants.

JavaScript numbers are modelled as rationals, ISO timestamps as opaque
strings, and the DynamoDB tables as association lists keyed exactly as the
CDK stack declares them (OrderItemsTable: partition `orderId`, sort
`itemId`; OrdersTable: partition `orderId`, sort `timestamp`).  A DynamoDB
`UpdateCommand` upserts: it modifies the matching row if present and
otherwise creates a row carrying only the key and SET attributes, so every
non-key attribute of a stored item row is optional.
-/

/-- Item status values used by the pipeline (stored as strings in DynamoDB). -/
def PENDING : String := "PENDING"

/-- Terminal success status. -/
def PROCESSED : String := "PROCESSED"

/-- Terminal failure status. -/
def FAILED : String := "FAILED"

/-- A row of `OrderItemsTable`.  Non-key attributes are optional because an
`UpdateCommand` upsert can create a row holding only the SET attributes. -/
structure DBItem where
  orderId : String
  itemId : String
  itemDetail : Option String
  quantity : Option ℚ
  price : Option ℚ
  itemStatus : Option String
  timestamp : Option String
  processedAt : Option String
  failedAt : Option String
deriving DecidableEq, Repr

/-- A row of `OrdersTable`, as built by `addOrderToDatabase`. -/
structure OrderRecord where
  orderId : String
  userId : String
  orderStatus : String
  timestamp : String
  totalItems : ℕ
  totalValue : ℚ
deriving DecidableEq, Repr

/-- The `OrderItemsTable` contents. -/
abbrev ItemsTable := List DBItem

/-- The durable Work Store: the orders table and the order-items table. -/
structure WorkStore where
  orders : List OrderRecord
  items : ItemsTable
deriving DecidableEq, Repr

/-- The queue message interface (`OrderItemMessage` in both consumers). -/
structure OrderItemMessage where
  orderId : String
  userId : String
  itemId : String
  itemDetail : String
  quantity : ℚ
  price : ℚ
  timestamp : String
deriving DecidableEq, Repr

/-- Key predicate for an `OrderItemsTable` row. -/
def keyMatch (orderId itemId : String) (r : DBItem) : Bool :=
  r.orderId == orderId && r.itemId == itemId

/-- `GetCommand` on `OrderItemsTable`: first row with the given key. -/
def getItem (tbl : ItemsTable) (orderId itemId : String) : Option DBItem :=
  tbl.find? (keyMatch orderId itemId)

/-- Result of a Lambda invocation: the table contents it leaves behind,
and whether the returned promise resolved (message acknowledged) or
rejected (message left unacknowledged, to be redelivered). -/
inductive HandlerResult where
  | resolved (tbl : ItemsTable)
  | rejected (tbl : ItemsTable)
deriving DecidableEq, Repr

/-- The table a handler run leaves behind, whether it resolved or rejected. -/
def resultTable : HandlerResult → ItemsTable
  | .resolved t => t
  | .rejected t => t

/-! ## OrderProcessor (`functions/OrderProcessor/index.ts`) -/

/-- `shouldSimulateFailure`: items whose id ends in '3' always fail; items
ending in '1' fail when `Math.random() < 0.5`; all others succeed.
`String.takeRight 1` models JavaScript `itemId.slice(-1)`. -/
def shouldSimulateFailure (itemId : String) (rand : ℚ) : Bool :=
  let lastDigit := itemId.takeRight 1
  if lastDigit = "3" then true
  else if lastDigit = "1" then rand < 1/2
  else false

/-- `processOrderItem`: the unit of work; throws exactly when
`shouldSimulateFailure` says so. -/
def processOrderItem (msg : OrderItemMessage) (rand : ℚ) : Except String Unit :=
  if shouldSimulateFailure msg.itemId rand then
    .error ("Simulated processing failure for item " ++ msg.itemId)
  else .ok ()

/-- `updateItemStatus`: `UpdateCommand` setting `itemStatus` and
`processedAt` on the row keyed `(orderId, itemId)` (upsert). -/
def updateItemStatus (tbl : ItemsTable) (orderId itemId status now : String) :
    ItemsTable :=
  if tbl.any (keyMatch orderId itemId) then
    tbl.map fun r =>
      if keyMatch orderId itemId r then
        { r with itemStatus := some status, processedAt := some now }
      else r
  else
    tbl ++ [{ orderId := orderId, itemId := itemId, itemDetail := none,
              quantity := none, price := none, itemStatus := some status,
              timestamp := none, processedAt := some now, failedAt := none }]

/-- Environment of one `processRecord` run: the value `Math.random()`
returns inside `shouldSimulateFailure`, whether the DynamoDB
`UpdateCommand` send succeeds, and the current ISO timestamp. -/
structure ProcEnv where
  rand : ℚ
  writeOk : Bool
  now : String
deriving DecidableEq, Repr

/-- The idempotency check of `processRecord`: the looked-up row exists and
its `itemStatus` is `'PROCESSED'` or `'FAILED'`. -/
def alreadyTerminal (existing : Option DBItem) : Bool :=
  match existing with
  | some it => it.itemStatus == some PROCESSED || it.itemStatus == some FAILED
  | none => false

/-- `processRecord`: look up the row; skip (acknowledge) if terminal;
otherwise run the unit of work, and on success write `PROCESSED`.  Any
error is re-thrown so the message is redelivered. -/
def processRecord (tbl : ItemsTable) (msg : OrderItemMessage) (env : ProcEnv) :
    HandlerResult :=
  if alreadyTerminal (getItem tbl msg.orderId msg.itemId) then .resolved tbl
  else
    match processOrderItem msg env.rand with
    | .error _ => .rejected tbl
    | .ok _ =>
        if env.writeOk then
          .resolved (updateItemStatus tbl msg.orderId msg.itemId PROCESSED env.now)
        else .rejected tbl

/-- The OrderProcessor `handler`: `Promise.all` over `processRecord` on
every record of the batch — every record runs, and the invocation rejects
exactly when some record rejected. -/
def orderProcessorHandler (tbl : ItemsTable)
    (records : List (OrderItemMessage × ProcEnv)) : HandlerResult :=
  let final := records.foldl
    (fun acc r =>
      match processRecord acc.1 r.1 r.2 with
      | .resolved t => (t, acc.2)
      | .rejected t => (t, true))
    (tbl, false)
  if final.2 then .rejected final.1 else .resolved final.1

/-! ## DLQProcessor (`functions/DLQProcessor/index.ts`) -/

/-- `updateItemStatusToFailed`: `UpdateCommand` setting `itemStatus` to
`'FAILED'` and `failedAt` on the row keyed `(orderId, itemId)` (upsert).
There is no check of the row's current status. -/
def updateItemStatusToFailed (tbl : ItemsTable) (orderId itemId now : String) :
    ItemsTable :=
  if tbl.any (keyMatch orderId itemId) then
    tbl.map fun r =>
      if keyMatch orderId itemId r then
        { r with itemStatus := some FAILED, failedAt := some now }
      else r
  else
    tbl ++ [{ orderId := orderId, itemId := itemId, itemDetail := none,
              quantity := none, price := none, itemStatus := some FAILED,
              timestamp := none, processedAt := none, failedAt := some now }]

/-- `processFailedItem`: attempt the mark-failed write (`writeOk` says
whether the DynamoDB send succeeds; on failure `updateItemStatusToFailed`
re-throws), but the surrounding `try/catch` swallows any error, so the
promise always resolves. -/
def processFailedItem (tbl : ItemsTable) (msg : OrderItemMessage)
    (writeOk : Bool) (now : String) : HandlerResult :=
  let attempt : HandlerResult :=
    if writeOk then
      .resolved (updateItemStatusToFailed tbl msg.orderId msg.itemId now)
    else .rejected tbl
  match attempt with
  | .resolved t => .resolved t
  | .rejected t => .resolved t

/-- `processDLQRecord`: parse the body and delegate to `processFailedItem`;
its own `try/catch` swallows any remaining error. -/
def processDLQRecord (tbl : ItemsTable) (msg : OrderItemMessage)
    (writeOk : Bool) (now : String) : HandlerResult :=
  match processFailedItem tbl msg writeOk now with
  | .resolved t => .resolved t
  | .rejected t => .resolved t

/-- The DLQProcessor `handler`: `Promise.allSettled` over `processDLQRecord`
on every record — every record runs and the invocation resolves regardless
of individual outcomes. -/
def dlqHandler (tbl : ItemsTable) (records : List (OrderItemMessage × Bool))
    (now : String) : HandlerResult :=
  let final := records.foldl
    (fun acc r =>
      match processDLQRecord acc.1 r.1 r.2 now with
      | .resolved t => (t, acc.2)
      | .rejected t => (t, true))
    (tbl, false)
  .resolved final.1

/-! ## OrderManager (`functions/OrderManager/index.ts`) -/

/-- An entry of the ingestion request's `orderItems` list. -/
structure OrderItem where
  itemDetail : String
  quantity : ℚ
  price : ℚ
deriving DecidableEq, Repr

/-- The ingestion request (`OrderEvent`). -/
structure OrderEvent where
  orderItems : List OrderItem
  orderId : String
  userId : String
  orderStatus : String
deriving DecidableEq, Repr

/-- The `orderRecord` built by `addOrderToDatabase`: denormalized
`totalItems` is the item count and `totalValue` the reduce of
`price * quantity` over the request's items starting from `0`. -/
def orderRecordOf (orderId userId : String) (items : List OrderItem)
    (orderStatus now : String) : OrderRecord :=
  { orderId := orderId, userId := userId, orderStatus := orderStatus,
    timestamp := now, totalItems := items.length,
    totalValue := items.foldl (fun sum item => sum + item.price * item.quantity) 0 }

/-- The `orderItemRecords` built by `addOrderToDatabase`: one PENDING row
per item, with `itemId` = `orderId + "-item-" + index` and the same
creation timestamp as the order record. -/
def orderItemRecordsOf (orderId : String) (items : List OrderItem)
    (now : String) : List DBItem :=
  items.enum.map fun p =>
    { orderId := orderId, itemId := orderId ++ "-item-" ++ Nat.repr p.1,
      itemDetail := some p.2.itemDetail, quantity := some p.2.quantity,
      price := some p.2.price, itemStatus := some PENDING,
      timestamp := some now, processedAt := none, failedAt := none }

/-- `PutCommand` on `OrdersTable` (key: `orderId`, `timestamp`): replace
the row with the same full key, else append. -/
def putOrder (orders : List OrderRecord) (r : OrderRecord) : List OrderRecord :=
  if orders.any (fun o => o.orderId == r.orderId && o.timestamp == r.timestamp) then
    orders.map fun o =>
      if o.orderId == r.orderId && o.timestamp == r.timestamp then r else o
  else orders ++ [r]

/-- One `PutRequest` of the `BatchWriteCommand` on `OrderItemsTable`:
replace the row with the same `(orderId, itemId)` key, else append. -/
def putItem (tbl : ItemsTable) (r : DBItem) : ItemsTable :=
  if tbl.any (keyMatch r.orderId r.itemId) then
    tbl.map fun x => if keyMatch r.orderId r.itemId x then r else x
  else tbl ++ [r]

/-- The `BatchWriteCommand`: put every record. -/
def batchPut (tbl : ItemsTable) (recs : List DBItem) : ItemsTable :=
  recs.foldl putItem tbl

/-- `addOrderToDatabase`: build the order record and the item records, then
issue two separate writes — a `PutCommand` for the order and a
`BatchWriteCommand` for the items.  `putOk` and `batchOk` say whether each
DynamoDB send succeeds; a failure re-throws, leaving whatever the earlier
sends already wrote. -/
def addOrderToDatabase (store : WorkStore) (orderId userId : String)
    (items : List OrderItem) (orderStatus now : String)
    (putOk batchOk : Bool) : Except WorkStore (WorkStore × List DBItem) :=
  let orderRecord := orderRecordOf orderId userId items orderStatus now
  let orderItemRecords := orderItemRecordsOf orderId items now
  if putOk then
    let store1 : WorkStore :=
      { store with orders := putOrder store.orders orderRecord }
    if batchOk then
      .ok ({ store1 with items := batchPut store1.items orderItemRecords },
           orderItemRecords)
    else .error store1
  else .error store

/-- A message sent to the orders FIFO queue by the OrderManager. -/
structure QueueMessage where
  messageBody : DBItem
  messageGroupId : String
  messageDeduplicationId : String
deriving DecidableEq, Repr

/-- The `SendMessageCommand` the OrderManager builds for the record at a
given position: `MessageGroupId` is the record's `orderId` and
`MessageDeduplicationId` is `itemId + "-" + Date.now() + "-" + index`
(`t` is the value `Date.now()` returned for this message). -/
def mkQueueMessage (r : DBItem) (t index : ℕ) : QueueMessage :=
  { messageBody := r, messageGroupId := r.orderId,
    messageDeduplicationId :=
      r.itemId ++ "-" ++ Nat.repr t ++ "-" ++ Nat.repr index }

/-- The list of `SendMessageCommand`s the OrderManager builds from the item
records returned by `addOrderToDatabase` (`orderItemRecords.map((itemMessage,
index) => ...)`). -/
def orderMessages (recs : List DBItem) (dateNow : ℕ → ℕ) : List QueueMessage :=
  recs.enum.map fun p => mkQueueMessage p.2 (dateNow p.1) p.1

/-- Outcome of one OrderManager invocation: the Work Store it leaves
behind, the queue messages whose sends succeeded, and whether the handler
returned its 200 response (`ok`) or threw (`failed`). -/
inductive IngestOutcome where
  | ok (store : WorkStore) (sent : List QueueMessage)
  | failed (store : WorkStore) (sent : List QueueMessage)
deriving DecidableEq, Repr

/-- The Work Store an ingestion run leaves behind. -/
def outcomeStore : IngestOutcome → WorkStore
  | .ok st _ => st
  | .failed st _ => st

/-- The queue messages an ingestion run actually enqueued. -/
def sentMessages : IngestOutcome → List QueueMessage
  | .ok _ ms => ms
  | .failed _ ms => ms

/-- Whether an ingestion run returned its 200 success response. -/
def ingestSucceeded : IngestOutcome → Bool
  | .ok _ _ => true
  | .failed _ _ => false

/-- The OrderManager `handler` (inside the idempotency wrapper): persist
via `addOrderToDatabase`, then send one queue message per item record via
`Promise.all` — every send is attempted; `sendOks i` says whether the send
for position `i` succeeds and `dateNow i` is the `Date.now()` value it
observes.  The handler returns 200 only when every send succeeded;
otherwise it throws, with the successfully sent messages already on the
queue. -/
def orderManagerHandler (store : WorkStore) (e : OrderEvent) (now : String)
    (putOk batchOk : Bool) (sendOks : ℕ → Bool) (dateNow : ℕ → ℕ) :
    IngestOutcome :=
  match addOrderToDatabase store e.orderId e.userId e.orderItems
      e.orderStatus now putOk batchOk with
  | .error st => .failed st []
  | .ok (st, orderItemRecords) =>
      let msgs := orderMessages orderItemRecords dateNow
      let delivered := (msgs.enum.filter fun p => sendOks p.1).map Prod.snd
      if msgs.enum.all (fun p => sendOks p.1) then .ok st delivered
      else .failed st delivered

/-! ## Queue substrate retry/escalation (modelled from the spec)

The redelivery and dead-letter behavior lives in the managed queue
service, not in this repository's source; the repository only configures
it (`OrdersFifoQueue` in the CDK stack: `deadLetterQueue = { queue: dlq,
maxReceiveCount: 3 }`). -/

/-- The `maxReceiveCount` configured on `OrdersFifoQueue` in the CDK stack. -/
def maxReceiveCount : ℕ := 3

/-- State of one message under the queue substrate: either still on the
Ordered Work Queue together with its count of failed deliveries so far, or
gone from it; plus the Dead-Letter Queue contents. -/
structure RetryState where
  mainQueue : Option (QueueMessage × ℕ)
  dlq : List QueueMessage
deriving DecidableEq, Repr

/-- Modelled from the spec: the queue substrate's reaction to one failed
(unacknowledged) delivery of the tracked message.  Spec §4.3: "a message
is redelivered up to a fixed maximum count (3 in this design) after each
unacknowledged delivery's visibility window elapses; on the (max+1)-th
failed delivery the queue substrate removes it from the Ordered Work Queue
and places it on the Dead-Letter Queue with the original payload intact."
A failed delivery while the count already stands at the maximum is that
(max+1)-th delivery, so the message moves to the DLQ. -/
def failedDelivery (maxReceive : ℕ) (s : RetryState) : RetryState :=
  match s.mainQueue with
  | none => s
  | some (m, k) =>
      if maxReceive < k + 1 then { mainQueue := none, dlq := s.dlq ++ [m] }
      else { mainQueue := some (m, k + 1), dlq := s.dlq }

/-- The life of an always-failing message: starting freshly enqueued,
apply `n` failed deliveries. -/
def alwaysFailRun (m : QueueMessage) (n : ℕ) : RetryState :=
  (failedDelivery maxReceiveCount)^[n] { mainQueue := some (m, 0), dlq := [] }


theorem find?_map_if {α : Type} (p : α → Bool) (f : α → α)
    (hf : ∀ a, p a = true → p (f a) = true) (l : List α) :
    (l.map fun a => if p a then f a else a).find? p = (l.find? p).map f := by
  induction l with
  | nil => rfl
  | cons a l ih =>
    by_cases h : p a = true
    · simp only [List.map_cons, if_pos h]
      rw [List.find?_cons_of_pos _ (hf a h), List.find?_cons_of_pos _ h]
      rfl
    · simp only [List.map_cons, if_neg h]
      rw [List.find?_cons_of_neg _ h, List.find?_cons_of_neg _ h, ih]

theorem find?_map_congr {α : Type} (p : α → Bool) (g : α → α) (l : List α)
    (h1 : ∀ a, p (g a) = p a) (h2 : ∀ a, p a = true → g a = a) :
    (l.map g).find? p = l.find? p := by
  induction l with
  | nil => rfl
  | cons a l ih =>
    by_cases h : p a = true
    · rw [List.map_cons, List.find?_cons_of_pos _ (by rw [h1 a]; exact h),
          List.find?_cons_of_pos _ h, h2 a h]
    · rw [List.map_cons, List.find?_cons_of_neg _ (by rw [h1 a]; exact h),
          List.find?_cons_of_neg _ h, ih]

theorem keyMatch_eq_true {o i : String} {r : DBItem} :
    keyMatch o i r = true ↔ r.orderId = o ∧ r.itemId = i := by
  simp [keyMatch]

theorem find?_eq_none_of_any_eq_false {α : Type} {p : α → Bool} {l : List α}
    (h : ¬l.any p = true) : l.find? p = none :=
  List.find?_eq_none.mpr fun x hx hpx => h (List.any_eq_true.mpr ⟨x, hx, hpx⟩)

theorem getItem_updateItemStatus (tbl : ItemsTable) (o i status now : String) :
    (getItem (updateItemStatus tbl o i status now) o i).map
      (fun r => (r.itemStatus, r.processedAt)) = some (some status, some now) := by
  unfold updateItemStatus getItem
  by_cases hany : tbl.any (keyMatch o i) = true
  · rw [if_pos hany, find?_map_if (keyMatch o i)
        (fun r => { r with itemStatus := some status, processedAt := some now })
        (fun a ha => ha)]
    obtain ⟨r, hr⟩ := Option.isSome_iff_exists.mp
      (List.find?_isSome.mpr (List.any_eq_true.mp hany))
    rw [hr]
    rfl
  · rw [if_neg hany, List.find?_append, find?_eq_none_of_any_eq_false hany]
    simp [keyMatch]

theorem getItem_updateItemStatusToFailed (tbl : ItemsTable) (o i now : String) :
    (getItem (updateItemStatusToFailed tbl o i now) o i).map
      (fun r => (r.itemStatus, r.failedAt)) = some (some FAILED, some now) := by
  unfold updateItemStatusToFailed getItem
  by_cases hany : tbl.any (keyMatch o i) = true
  · rw [if_pos hany, find?_map_if (keyMatch o i)
        (fun r => { r with itemStatus := some FAILED, failedAt := some now })
        (fun a ha => ha)]
    obtain ⟨r, hr⟩ := Option.isSome_iff_exists.mp
      (List.find?_isSome.mpr (List.any_eq_true.mp hany))
    rw [hr]
    rfl
  · rw [if_neg hany, List.find?_append, find?_eq_none_of_any_eq_false hany]
    simp [keyMatch]

theorem getItem_putItem_self (tbl : ItemsTable) (r : DBItem) :
    getItem (putItem tbl r) r.orderId r.itemId = some r := by
  unfold putItem getItem
  by_cases hany : tbl.any (keyMatch r.orderId r.itemId) = true
  · rw [if_pos hany,
        find?_map_if (keyMatch r.orderId r.itemId) (fun _ => r)
          (fun a _ => by simp [keyMatch])]
    obtain ⟨x, hx⟩ := Option.isSome_iff_exists.mp
      (List.find?_isSome.mpr (List.any_eq_true.mp hany))
    rw [hx]
    rfl
  · rw [if_neg hany, List.find?_append, find?_eq_none_of_any_eq_false hany]
    simp [keyMatch]

theorem getItem_putItem_ne (tbl : ItemsTable) (r : DBItem) (o i : String)
    (hne : ¬(r.orderId = o ∧ r.itemId = i)) :
    getItem (putItem tbl r) o i = getItem tbl o i := by
  have hkr : keyMatch o i r = false :=
    Bool.eq_false_iff.mpr fun h => hne (keyMatch_eq_true.mp h)
  unfold putItem getItem
  by_cases hany : tbl.any (keyMatch r.orderId r.itemId) = true
  · rw [if_pos hany]
    apply find?_map_congr
    · intro a
      by_cases hk : keyMatch r.orderId r.itemId a = true
      · rw [if_pos hk, hkr]
        have : keyMatch o i a = false := Bool.eq_false_iff.mpr fun h => by
          obtain ⟨h1, h2⟩ := keyMatch_eq_true.mp h
          obtain ⟨h3, h4⟩ := keyMatch_eq_true.mp hk
          exact hne ⟨h3 ▸ h1, h4 ▸ h2⟩
        rw [this]
      · rw [if_neg hk]
    · intro a ha
      by_cases hk : keyMatch r.orderId r.itemId a = true
      · obtain ⟨h1, h2⟩ := keyMatch_eq_true.mp ha
        obtain ⟨h3, h4⟩ := keyMatch_eq_true.mp hk
        exact absurd ⟨h3 ▸ h1, h4 ▸ h2⟩ hne
      · rw [if_neg hk]
  · rw [if_neg hany, List.find?_append]
    have : List.find? (keyMatch o i) [r] = none := by simp [hkr]
    rw [this, Option.or_none]

/-- Distinct `(orderId, itemId)` keys. -/
def keyNe (a b : DBItem) : Prop := ¬(a.orderId = b.orderId ∧ a.itemId = b.itemId)

theorem getItem_batchPut_notmem :
    ∀ (recs : List DBItem) (tbl : ItemsTable) (o i : String),
      (∀ r ∈ recs, ¬(r.orderId = o ∧ r.itemId = i)) →
      getItem (batchPut tbl recs) o i = getItem tbl o i := by
  intro recs
  induction recs with
  | nil => intro tbl o i _; rfl
  | cons r rest ih =>
    intro tbl o i h
    show getItem (batchPut (putItem tbl r) rest) o i = _
    rw [ih (putItem tbl r) o i (fun x hx => h x (List.mem_cons_of_mem _ hx)),
        getItem_putItem_ne tbl r o i (h r (List.mem_cons_self _ _))]

theorem getItem_batchPut_mem :
    ∀ (recs : List DBItem) (tbl : ItemsTable) (r : DBItem),
      recs.Pairwise keyNe → r ∈ recs →
      getItem (batchPut tbl recs) r.orderId r.itemId = some r := by
  intro recs
  induction recs with
  | nil => intro _ _ _ h; cases h
  | cons r0 rest ih =>
    intro tbl r hp hr
    rw [List.pairwise_cons] at hp
    rcases List.mem_cons.mp hr with rfl | hmem
    · show getItem (batchPut (putItem tbl r) rest) r.orderId r.itemId = some r
      rw [getItem_batchPut_notmem rest (putItem tbl r) _ _
            (fun x hx hk => hp.1 x hx ⟨hk.1.symm, hk.2.symm⟩)]
      exact getItem_putItem_self tbl r
    · exact ih (putItem tbl r0) r hp.2 hmem

theorem digitChar_eq_star {m : Nat} (h : 16 ≤ m) : Nat.digitChar m = '*' := by
  unfold Nat.digitChar
  iterate 16 rw [if_neg (by omega)]

theorem digitChar_ne_dash (m : Nat) : Nat.digitChar m ≠ '-' := by
  by_cases h : m < 16
  · interval_cases m <;> decide
  · rw [digitChar_eq_star (by omega)]; decide

theorem toDigitsCore_ne_dash :
    ∀ (f n : ℕ) (ds : List Char), '-' ∉ ds → '-' ∉ Nat.toDigitsCore 10 f n ds := by
  intro f
  induction f with
  | zero => intro n ds h; simpa [Nat.toDigitsCore] using h
  | succ f ih =>
    intro n ds h
    simp only [Nat.toDigitsCore]
    split
    · intro hmem
      rcases List.mem_cons.mp hmem with h1 | h1
      · exact digitChar_ne_dash (n % 10) h1.symm
      · exact h h1
    · apply ih
      intro hmem
      rcases List.mem_cons.mp hmem with h1 | h1
      · exact digitChar_ne_dash (n % 10) h1.symm
      · exact h h1

theorem repr_ne_dash (n : ℕ) : '-' ∉ (Nat.repr n).data := by
  show '-' ∉ Nat.toDigitsCore 10 (n + 1) n []
  exact toDigitsCore_ne_dash (n + 1) n [] (by simp)

theorem toDigitsCore_append :
    ∀ (f n : ℕ) (ds : List Char),
      Nat.toDigitsCore 10 f n ds = Nat.toDigitsCore 10 f n [] ++ ds := by
  intro f
  induction f with
  | zero => intro n ds; simp [Nat.toDigitsCore]
  | succ f ih =>
    intro n ds
    simp only [Nat.toDigitsCore]
    split
    · simp
    · rw [ih (n / 10) (Nat.digitChar (n % 10) :: ds),
          ih (n / 10) [Nat.digitChar (n % 10)], List.append_assoc]
      simp

theorem toDigitsCore_fuel :
    ∀ (n f g : ℕ), n < f → n < g → ∀ ds : List Char,
      Nat.toDigitsCore 10 f n ds = Nat.toDigitsCore 10 g n ds := by
  intro n
  induction n using Nat.strong_induction_on with
  | _ n IH =>
    intro f g hf hg ds
    match f, g with
    | f + 1, g + 1 =>
      simp only [Nat.toDigitsCore]
      split
      · rfl
      · rename_i hdiv
        have hn : 0 < n := by
          rcases Nat.eq_zero_or_pos n with h | h
          · exact absurd (by simp [h]) hdiv
          · exact h
        have hlt : n / 10 < n := Nat.div_lt_self hn (by omega)
        exact IH (n / 10) hlt f g (by omega) (by omega) _

def charVal (c : Char) : ℕ := c.toNat - '0'.toNat

def valOfDigits (l : List Char) : ℕ := l.foldl (fun a c => a * 10 + charVal c) 0

theorem charVal_digitChar (m : ℕ) (h : m < 10) : charVal (Nat.digitChar m) = m := by
  interval_cases m <;> decide

theorem valOfDigits_toDigitsCore :
    ∀ (n f : ℕ), n < f → valOfDigits (Nat.toDigitsCore 10 f n []) = n := by
  intro n
  induction n using Nat.strong_induction_on with
  | _ n IH =>
    intro f hf
    match f with
    | f + 1 =>
      simp only [Nat.toDigitsCore]
      split
      · rename_i hdiv
        have hlt : n < 10 := (Nat.div_eq_zero_iff (by omega)).mp hdiv
        rw [Nat.mod_eq_of_lt hlt]
        simp [valOfDigits, charVal_digitChar n hlt]
      · rename_i hdiv
        have hn : 0 < n := by
          rcases Nat.eq_zero_or_pos n with h | h
          · exact absurd (by simp [h]) hdiv
          · exact h
        have hlt : n / 10 < n := Nat.div_lt_self hn (by omega)
        rw [toDigitsCore_append f (n / 10) [Nat.digitChar (n % 10)]]
        have hfuel : n / 10 < f := by omega
        have := IH (n / 10) hlt f hfuel
        simp only [valOfDigits, List.foldl_append] at *
        rw [this]
        simp [charVal_digitChar (n % 10) (Nat.mod_lt n (by omega))]
        omega

theorem repr_injective {m n : ℕ} (h : Nat.repr m = Nat.repr n) : m = n := by
  have hm : valOfDigits (Nat.toDigitsCore 10 (m + 1) m []) = m :=
    valOfDigits_toDigitsCore m (m + 1) (by omega)
  have hn : valOfDigits (Nat.toDigitsCore 10 (n + 1) n []) = n :=
    valOfDigits_toDigitsCore n (n + 1) (by omega)
  have hdata : (Nat.repr m).data = (Nat.repr n).data := congrArg String.data h
  have hlist : Nat.toDigitsCore 10 (m + 1) m [] = Nat.toDigitsCore 10 (n + 1) n [] := hdata
  rw [← hm, ← hn, hlist]

theorem dash_split_inj :
    ∀ (u v x y : List Char), '-' ∉ u → '-' ∉ v →
      u ++ '-' :: x = v ++ '-' :: y → u = v ∧ x = y := by
  intro u
  induction u with
  | nil =>
    intro v x y _ hv h
    cases v with
    | nil => simpa using h
    | cons c v' =>
      simp only [List.nil_append, List.cons_append, List.cons.injEq] at h
      exact absurd (List.mem_cons_self c v') (h.1 ▸ hv)
  | cons a u' ih =>
    intro v x y hu hv h
    cases v with
    | nil =>
      simp only [List.cons_append, List.nil_append, List.cons.injEq] at h
      exact absurd (h.1 ▸ List.mem_cons_self a u') hu
    | cons c v' =>
      simp only [List.cons_append, List.cons.injEq] at h
      obtain ⟨rfl, h2⟩ := h
      have hu' : '-' ∉ u' := fun hm => hu (List.mem_cons_of_mem a hm)
      have hv' : '-' ∉ v' := fun hm => hv (List.mem_cons_of_mem a hm)
      obtain ⟨rfl, rfl⟩ := ih v' x y hu' hv' h2
      exact ⟨rfl, rfl⟩

theorem repr_dash_inj {a b : ℕ} {x y : List Char}
    (h : (Nat.repr a).data ++ '-' :: x = (Nat.repr b).data ++ '-' :: y) :
    a = b ∧ x = y := by
  obtain ⟨h1, h2⟩ := dash_split_inj _ _ _ _ (repr_ne_dash a) (repr_ne_dash b) h
  exact ⟨repr_injective (String.ext h1), h2⟩

theorem dedup_component_inj (orderId : String) {i j ti tj : ℕ}
    (h : (orderId ++ "-item-" ++ Nat.repr i) ++ "-" ++ Nat.repr ti ++ "-" ++ Nat.repr i
       = (orderId ++ "-item-" ++ Nat.repr j) ++ "-" ++ Nat.repr tj ++ "-" ++ Nat.repr j) :
    i = j := by
  have hd := congrArg String.data h
  simp only [String.data_append, List.append_assoc] at hd
  have h1 := List.append_cancel_left (List.append_cancel_left hd)
  simp only [List.singleton_append] at h1
  exact (repr_dash_inj h1).1

theorem itemId_inj (orderId : String) {i j : ℕ}
    (h : orderId ++ "-item-" ++ Nat.repr i = orderId ++ "-item-" ++ Nat.repr j) :
    i = j := by
  have hd := congrArg String.data h
  simp only [String.data_append, List.append_assoc] at hd
  have h1 := List.append_cancel_left (List.append_cancel_left hd)
  exact repr_injective (String.ext h1)

theorem orderItemRecordsOf_length (oid : String) (items : List OrderItem) (now : String) :
    (orderItemRecordsOf oid items now).length = items.length := by
  simp [orderItemRecordsOf, List.enum_length]

theorem orderItemRecordsOf_getElem? (oid : String) (items : List OrderItem)
    (now : String) (k : ℕ) :
    (orderItemRecordsOf oid items now)[k]? = (items[k]?).map fun it =>
      { orderId := oid, itemId := oid ++ "-item-" ++ Nat.repr k,
        itemDetail := some it.itemDetail, quantity := some it.quantity,
        price := some it.price, itemStatus := some PENDING,
        timestamp := some now, processedAt := none, failedAt := none } := by
  rw [orderItemRecordsOf, List.getElem?_map]
  rw [List.getElem?_enum, Option.map_map]
  rfl

theorem orderItemRecordsOf_orderId {oid : String} {items : List OrderItem}
    {now : String} {r : DBItem} (h : r ∈ orderItemRecordsOf oid items now) :
    r.orderId = oid := by
  obtain ⟨p, _, rfl⟩ := List.mem_map.mp h
  rfl

theorem orderItemRecordsOf_pairwise (oid : String) (items : List OrderItem)
    (now : String) : (orderItemRecordsOf oid items now).Pairwise keyNe := by
  rw [List.pairwise_iff_getElem]
  intro a b ha hb hab
  rw [orderItemRecordsOf_length] at ha hb
  have h1 := orderItemRecordsOf_getElem? oid items now a
  have h2 := orderItemRecordsOf_getElem? oid items now b
  rw [List.getElem?_eq_getElem (by rw [orderItemRecordsOf_length]; exact ha),
      List.getElem?_eq_getElem ha] at h1
  rw [List.getElem?_eq_getElem (by rw [orderItemRecordsOf_length]; exact hb),
      List.getElem?_eq_getElem hb] at h2
  rw [Option.map_some'] at h1 h2
  rw [Option.some_inj] at h1 h2
  intro hk
  obtain ⟨_, hid⟩ := hk
  rw [h1, h2] at hid
  exact absurd (itemId_inj oid hid) (Nat.ne_of_lt hab)

theorem foldl_price_sum (items : List OrderItem) :
    items.foldl (fun sum item => sum + item.price * item.quantity) 0
      = (items.map fun item => item.price * item.quantity).sum := by
  rw [List.sum_eq_foldl, List.foldl_map]

theorem enum_all_iff {α : Type} (l : List α) (q : ℕ → Bool) :
    l.enum.all (fun p => q p.1) = true ↔ ∀ i < l.length, q i = true := by
  rw [List.all_eq_true]
  constructor
  · intro h i hi
    have hm : (i, l[i]) ∈ l.enum := by
      have hg := List.getElem_enum l i (by simpa [List.enum_length] using hi)
      exact hg ▸ List.getElem_mem _
    exact h _ hm
  · intro h p hp
    obtain ⟨n, hn, hget⟩ := List.mem_iff_getElem.mp hp
    rw [List.getElem_enum] at hget
    rw [← hget]
    exact h n (by simpa [List.enum_length] using hn)

theorem filter_enum_all {α : Type} (l : List α) (q : ℕ → Bool)
    (h : l.enum.all (fun p => q p.1) = true) :
    (l.enum.filter fun p => q p.1).map Prod.snd = l := by
  rw [List.filter_eq_self.mpr (fun a ha => (List.all_eq_true.mp h) a ha),
      List.enum_map_snd]

theorem alreadyTerminal_of_status {tbl : ItemsTable} {o i : String} {r : DBItem}
    (hget : getItem tbl o i = some r)
    (hterm : r.itemStatus = some PROCESSED ∨ r.itemStatus = some FAILED) :
    alreadyTerminal (getItem tbl o i) = true := by
  rw [hget]
  rcases hterm with h | h <;> simp [alreadyTerminal, h]

theorem processRecord_skip {tbl : ItemsTable} {msg : OrderItemMessage}
    (env : ProcEnv)
    (hterm : alreadyTerminal (getItem tbl msg.orderId msg.itemId) = true) :
    processRecord tbl msg env = .resolved tbl := by
  simp [processRecord, hterm]

theorem processRecord_fail {tbl : ItemsTable} {msg : OrderItemMessage}
    {env : ProcEnv}
    (hterm : alreadyTerminal (getItem tbl msg.orderId msg.itemId) = false)
    (hfail : shouldSimulateFailure msg.itemId env.rand = true) :
    processRecord tbl msg env = .rejected tbl := by
  simp [processRecord, hterm, processOrderItem, hfail]

theorem alwaysFailRun_le (m : QueueMessage) (n : ℕ) (hn : n ≤ maxReceiveCount) :
    alwaysFailRun m n = { mainQueue := some (m, n), dlq := [] } := by
  induction n with
  | zero => rfl
  | succ k ih =>
    have hk : k ≤ maxReceiveCount := le_trans (Nat.le_succ k) hn
    rw [alwaysFailRun, Function.iterate_succ_apply', ← alwaysFailRun, ih hk]
    simp [failedDelivery, Nat.not_lt.mpr hn]

theorem alwaysFailRun_gt (m : QueueMessage) (n : ℕ)
    (hn : maxReceiveCount + 1 ≤ n) :
    alwaysFailRun m n = { mainQueue := none, dlq := [m] } := by
  induction n with
  | zero => omega
  | succ k ih =>
    by_cases hk : maxReceiveCount + 1 ≤ k
    · rw [alwaysFailRun, Function.iterate_succ_apply', ← alwaysFailRun, ih hk]
      rfl
    · have hke : k = maxReceiveCount := by omega
      subst hke
      rw [alwaysFailRun, Function.iterate_succ_apply', ← alwaysFailRun,
          alwaysFailRun_le m maxReceiveCount le_rfl]
      simp [failedDelivery]

/-- The Work Store after both persistence writes of one ingestion call. -/
def persistedStore (store : WorkStore) (e : OrderEvent) (now : String) :
    WorkStore :=
  { orders := putOrder store.orders
      (orderRecordOf e.orderId e.userId e.orderItems e.orderStatus now),
    items := batchPut store.items
      (orderItemRecordsOf e.orderId e.orderItems now) }

theorem orderManagerHandler_put_fail (store : WorkStore) (e : OrderEvent)
    (now : String) (batchOk : Bool) (sendOks : ℕ → Bool) (dateNow : ℕ → ℕ) :
    orderManagerHandler store e now false batchOk sendOks dateNow
      = .failed store [] := rfl

theorem orderManagerHandler_batch_fail (store : WorkStore) (e : OrderEvent)
    (now : String) (sendOks : ℕ → Bool) (dateNow : ℕ → ℕ) :
    orderManagerHandler store e now true false sendOks dateNow
      = .failed
        { store with
          orders := putOrder store.orders
            (orderRecordOf e.orderId e.userId e.orderItems e.orderStatus now) }
        [] := rfl

theorem orderManagerHandler_persist (store : WorkStore) (e : OrderEvent)
    (now : String) (sendOks : ℕ → Bool) (dateNow : ℕ → ℕ) :
    orderManagerHandler store e now true true sendOks dateNow =
      (if (orderMessages (orderItemRecordsOf e.orderId e.orderItems now)
            dateNow).enum.all (fun p => sendOks p.1) then
        IngestOutcome.ok (persistedStore store e now)
          (((orderMessages (orderItemRecordsOf e.orderId e.orderItems now)
              dateNow).enum.filter fun p => sendOks p.1).map Prod.snd)
      else
        IngestOutcome.failed (persistedStore store e now)
          (((orderMessages (orderItemRecordsOf e.orderId e.orderItems now)
              dateNow).enum.filter fun p => sendOks p.1).map Prod.snd)) := rfl

theorem outcomeStore_persist (store : WorkStore) (e : OrderEvent)
    (now : String) (sendOks : ℕ → Bool) (dateNow : ℕ → ℕ) :
    outcomeStore (orderManagerHandler store e now true true sendOks dateNow)
      = persistedStore store e now := by
  rw [orderManagerHandler_persist]
  by_cases h : (orderMessages (orderItemRecordsOf e.orderId e.orderItems now)
      dateNow).enum.all (fun p => sendOks p.1) = true
  · rw [if_pos h]
    rfl
  · rw [if_neg h]
    rfl

theorem orderItemRecordsOf_status {oid : String} {items : List OrderItem}
    {now : String} {r : DBItem} (h : r ∈ orderItemRecordsOf oid items now) :
    r.itemStatus = some PENDING := by
  obtain ⟨p, _, rfl⟩ := List.mem_map.mp h
  rfl

theorem persisted_items_lookup (store : WorkStore) (e : OrderEvent)
    (now : String) {r : DBItem}
    (hr : r ∈ orderItemRecordsOf e.orderId e.orderItems now) :
    getItem (persistedStore store e now).items r.orderId r.itemId = some r :=
  getItem_batchPut_mem _ _ _
    (orderItemRecordsOf_pairwise e.orderId e.orderItems now) hr

theorem mem_putOrder (orders : List OrderRecord) (r : OrderRecord) :
    r ∈ putOrder orders r := by
  unfold putOrder
  by_cases h : orders.any
      (fun o => o.orderId == r.orderId && o.timestamp == r.timestamp) = true
  · rw [if_pos h]
    obtain ⟨o, ho, hpo⟩ := List.any_eq_true.mp h
    exact List.mem_map.mpr ⟨o, ho, by rw [if_pos hpo]⟩
  · rw [if_neg h]
    exact List.mem_append.mpr (Or.inr (List.mem_cons_self _ _))

theorem orderMessages_length (recs : List DBItem) (dateNow : ℕ → ℕ) :
    (orderMessages recs dateNow).length = recs.length := by
  simp [orderMessages, List.enum_length]

theorem orderMessages_getElem? (recs : List DBItem) (dateNow : ℕ → ℕ)
    (k : ℕ) :
    (orderMessages recs dateNow)[k]?
      = (recs[k]?).map fun r => mkQueueMessage r (dateNow k) k := by
  rw [orderMessages, List.getElem?_map, List.getElem?_enum, Option.map_map]
  rfl

theorem orderMessages_groupId {recs : List DBItem} {dateNow : ℕ → ℕ}
    {m : QueueMessage} (h : m ∈ orderMessages recs dateNow) :
    ∃ r ∈ recs, m.messageGroupId = r.orderId := by
  obtain ⟨p, hp, rfl⟩ := List.mem_map.mp h
  obtain ⟨n, hn, hget⟩ := List.mem_iff_getElem.mp hp
  rw [List.getElem_enum] at hget
  refine ⟨p.2, ?_, rfl⟩
  rw [← hget]
  exact List.getElem_mem _

/-! ## Claims -/

/-- C1 (counterexample to the claim as stated): for an item row already in
terminal status PROCESSED, processing a Dead-Letter Queue message for it
does change the status — the DLQ handler unconditionally rewrites it to
FAILED (keeping `processedAt` and adding `failedAt`). -/
theorem dlq_overwrites_processed_counterexample :
    processDLQRecord
      [{ orderId := "o1", itemId := "o1-item-0", itemDetail := some "Laptop",
         quantity := some 1, price := some 5, itemStatus := some PROCESSED,
         timestamp := some "t0", processedAt := some "t1", failedAt := none }]
      { orderId := "o1", userId := "u1", itemId := "o1-item-0",
        itemDetail := "Laptop", quantity := 1, price := 5, timestamp := "t0" }
      true "t2"
    = .resolved
      [{ orderId := "o1", itemId := "o1-item-0", itemDetail := some "Laptop",
         quantity := some 1, price := some 5, itemStatus := some FAILED,
         timestamp := some "t0", processedAt := some "t1",
         failedAt := some "t2" }] := by
  decide

/-- C1 (amended): the Item Processor never changes a terminal item — a
delivered message whose stored row is PROCESSED or FAILED is acknowledged
with the table unchanged, for every environment (any `Math.random` value,
write outcome and clock).  The Dead-Letter Handler, however, marks the row
FAILED unconditionally, so monotonicity holds only on the Item Processor
side: a DLQ message for an item already PROCESSED flips it to FAILED. -/
theorem terminal_status_monotonic_amended (tbl : ItemsTable)
    (msg : OrderItemMessage) (env : ProcEnv) (r : DBItem) (now : String)
    (hget : getItem tbl msg.orderId msg.itemId = some r)
    (hterm : r.itemStatus = some PROCESSED ∨ r.itemStatus = some FAILED) :
    processRecord tbl msg env = .resolved tbl ∧
    (getItem (resultTable (processDLQRecord tbl msg true now)) msg.orderId
        msg.itemId).map (fun x => x.itemStatus) = some (some FAILED) := by
  constructor
  · exact processRecord_skip env (alreadyTerminal_of_status hget hterm)
  · have h := getItem_updateItemStatusToFailed tbl msg.orderId msg.itemId now
    have hres : resultTable (processDLQRecord tbl msg true now)
        = updateItemStatusToFailed tbl msg.orderId msg.itemId now := rfl
    rw [hres]
    cases hx : getItem (updateItemStatusToFailed tbl msg.orderId msg.itemId now)
        msg.orderId msg.itemId with
    | none => rw [hx] at h; simp at h
    | some x =>
        rw [hx] at h
        rw [Option.map_some'] at h ⊢
        rw [Option.some_inj] at h ⊢
        rw [Prod.mk.injEq] at h
        exact h.1

/-- C1 witness: the amended theorem applied to a one-row table holding a
PROCESSED item. -/
theorem terminal_status_monotonic_amended_witness :
    processRecord
      [{ orderId := "o1", itemId := "o1-item-0", itemDetail := some "Laptop",
         quantity := some 1, price := some 5, itemStatus := some PROCESSED,
         timestamp := some "t0", processedAt := some "t1", failedAt := none }]
      { orderId := "o1", userId := "u1", itemId := "o1-item-0",
        itemDetail := "Laptop", quantity := 1, price := 5, timestamp := "t0" }
      ⟨0, true, "t2"⟩
    = .resolved
      [{ orderId := "o1", itemId := "o1-item-0", itemDetail := some "Laptop",
         quantity := some 1, price := some 5, itemStatus := some PROCESSED,
         timestamp := some "t0", processedAt := some "t1", failedAt := none }] ∧
    (getItem (resultTable (processDLQRecord
      [{ orderId := "o1", itemId := "o1-item-0", itemDetail := some "Laptop",
         quantity := some 1, price := some 5, itemStatus := some PROCESSED,
         timestamp := some "t0", processedAt := some "t1", failedAt := none }]
      { orderId := "o1", userId := "u1", itemId := "o1-item-0",
        itemDetail := "Laptop", quantity := 1, price := 5, timestamp := "t0" }
      true "t2")) "o1" "o1-item-0").map (fun x => x.itemStatus)
    = some (some FAILED) :=
  terminal_status_monotonic_amended
    [{ orderId := "o1", itemId := "o1-item-0", itemDetail := some "Laptop",
       quantity := some 1, price := some 5, itemStatus := some PROCESSED,
       timestamp := some "t0", processedAt := some "t1", failedAt := none }]
    { orderId := "o1", userId := "u1", itemId := "o1-item-0",
      itemDetail := "Laptop", quantity := 1, price := 5, timestamp := "t0" }
    ⟨0, true, "t2"⟩
    { orderId := "o1", itemId := "o1-item-0", itemDetail := some "Laptop",
      quantity := some 1, price := some 5, itemStatus := some PROCESSED,
      timestamp := some "t0", processedAt := some "t1", failedAt := none }
    "t2" (by decide) (Or.inl (by decide))

/-- C3: a delivered message whose stored row exists with a non-terminal
status, and whose unit of work throws, makes `processRecord` reject — and
therefore the whole invocation reject — with the items table unchanged
(the status write is never reached). -/
theorem processing_failure_propagates (tbl : ItemsTable)
    (msg : OrderItemMessage) (env : ProcEnv) (r : DBItem)
    (hget : getItem tbl msg.orderId msg.itemId = some r)
    (hnp : r.itemStatus ≠ some PROCESSED) (hnf : r.itemStatus ≠ some FAILED)
    (hfail : shouldSimulateFailure msg.itemId env.rand = true) :
    processRecord tbl msg env = .rejected tbl ∧
    orderProcessorHandler tbl [(msg, env)] = .rejected tbl := by
  have hterm : alreadyTerminal (getItem tbl msg.orderId msg.itemId) = false := by
    rw [hget]
    simp [alreadyTerminal, hnp, hnf]
  have h1 := processRecord_fail hterm hfail
  refine ⟨h1, ?_⟩
  simp [orderProcessorHandler, h1]

/-- C3 witness: a PENDING row for an always-failing item id. -/
theorem processing_failure_propagates_witness :
    processRecord
      [{ orderId := "o1", itemId := "o1-item-3", itemDetail := some "Mouse",
         quantity := some 1, price := some 5, itemStatus := some PENDING,
         timestamp := some "t0", processedAt := none, failedAt := none }]
      { orderId := "o1", userId := "u1", itemId := "o1-item-3",
        itemDetail := "Mouse", quantity := 1, price := 5, timestamp := "t0" }
      ⟨0, true, "t2"⟩
    = .rejected
      [{ orderId := "o1", itemId := "o1-item-3", itemDetail := some "Mouse",
         quantity := some 1, price := some 5, itemStatus := some PENDING,
         timestamp := some "t0", processedAt := none, failedAt := none }] ∧
    orderProcessorHandler
      [{ orderId := "o1", itemId := "o1-item-3", itemDetail := some "Mouse",
         quantity := some 1, price := some 5, itemStatus := some PENDING,
         timestamp := some "t0", processedAt := none, failedAt := none }]
      [({ orderId := "o1", userId := "u1", itemId := "o1-item-3",
          itemDetail := "Mouse", quantity := 1, price := 5,
          timestamp := "t0" }, ⟨0, true, "t2"⟩)]
    = .rejected
      [{ orderId := "o1", itemId := "o1-item-3", itemDetail := some "Mouse",
         quantity := some 1, price := some 5, itemStatus := some PENDING,
         timestamp := some "t0", processedAt := none, failedAt := none }] :=
  processing_failure_propagates _ _ _
    { orderId := "o1", itemId := "o1-item-3", itemDetail := some "Mouse",
      quantity := some 1, price := some 5, itemStatus := some PENDING,
      timestamp := some "t0", processedAt := none, failedAt := none }
    (by decide) (by decide) (by decide) (by decide)

/-- C4: a delivered message whose stored row is already PROCESSED or
FAILED is acknowledged without running the unit of work and without any
write: the result is `resolved` with the very same table, for every
environment (so independent of the random draw and of whether a write
would succeed). -/
theorem duplicate_delivery_noop (tbl : ItemsTable) (msg : OrderItemMessage)
    (env : ProcEnv) (r : DBItem)
    (hget : getItem tbl msg.orderId msg.itemId = some r)
    (hterm : r.itemStatus = some PROCESSED ∨ r.itemStatus = some FAILED) :
    processRecord tbl msg env = .resolved tbl :=
  processRecord_skip env (alreadyTerminal_of_status hget hterm)

/-- C4 witness: redelivery of an already-PROCESSED item's message. -/
theorem duplicate_delivery_noop_witness :
    processRecord
      [{ orderId := "o1", itemId := "o1-item-0", itemDetail := some "Laptop",
         quantity := some 1, price := some 5, itemStatus := some PROCESSED,
         timestamp := some "t0", processedAt := some "t1", failedAt := none }]
      { orderId := "o1", userId := "u1", itemId := "o1-item-0",
        itemDetail := "Laptop", quantity := 1, price := 5, timestamp := "t0" }
      ⟨0, false, "t9"⟩
    = .resolved
      [{ orderId := "o1", itemId := "o1-item-0", itemDetail := some "Laptop",
         quantity := some 1, price := some 5, itemStatus := some PROCESSED,
         timestamp := some "t0", processedAt := some "t1", failedAt := none }] :=
  duplicate_delivery_noop _ _ _
    { orderId := "o1", itemId := "o1-item-0", itemDetail := some "Laptop",
      quantity := some 1, price := some 5, itemStatus := some PROCESSED,
      timestamp := some "t0", processedAt := some "t1", failedAt := none }
    (by decide) (Or.inl (by decide))

/-- C5: the Dead-Letter Handler never propagates a failure —
`processFailedItem` resolves whether or not the mark-failed write throws,
the batch handler resolves on every batch, and on the success path the
row keyed by the message is left with status FAILED and `failedAt` set to
the current timestamp. -/
theorem dlq_handler_always_resolves (tbl : ItemsTable)
    (msg : OrderItemMessage) (writeOk : Bool) (now : String)
    (records : List (OrderItemMessage × Bool)) :
    (∃ t, processFailedItem tbl msg writeOk now = .resolved t) ∧
    (∃ t, dlqHandler tbl records now = .resolved t) ∧
    (writeOk = true →
      (getItem (resultTable (processFailedItem tbl msg writeOk now))
          msg.orderId msg.itemId).map (fun x => (x.itemStatus, x.failedAt))
        = some (some FAILED, some now)) := by
  refine ⟨?_, ⟨_, rfl⟩, ?_⟩
  · cases writeOk
    · exact ⟨tbl, rfl⟩
    · exact ⟨updateItemStatusToFailed tbl msg.orderId msg.itemId now, rfl⟩
  · intro hw
    subst hw
    exact getItem_updateItemStatusToFailed tbl msg.orderId msg.itemId now

/-- C5 witness: a failing write (swallowed) and a successful write. -/
theorem dlq_handler_always_resolves_witness :
    (∃ t, processFailedItem []
      { orderId := "o1", userId := "u1", itemId := "o1-item-3",
        itemDetail := "Mouse", quantity := 1, price := 5, timestamp := "t0" }
      true "t2" = .resolved t) ∧
    (∃ t, dlqHandler []
      [({ orderId := "o1", userId := "u1", itemId := "o1-item-3",
          itemDetail := "Mouse", quantity := 1, price := 5,
          timestamp := "t0" }, false)] "t2" = .resolved t) ∧
    (true = true →
      (getItem (resultTable (processFailedItem []
        { orderId := "o1", userId := "u1", itemId := "o1-item-3",
          itemDetail := "Mouse", quantity := 1, price := 5,
          timestamp := "t0" }
        true "t2")) "o1" "o1-item-3").map (fun x => (x.itemStatus, x.failedAt))
      = some (some FAILED, some "t2")) :=
  dlq_handler_always_resolves [] _ true "t2" _

/-- C10: an item id whose last character is '3' makes the unit of work
throw for every `Math.random` draw, so a delivered message for it with a
non-terminal stored row is always rejected with the table unchanged — the
Item Processor never marks such an item PROCESSED. -/
theorem items_ending_three_never_processed (tbl : ItemsTable)
    (msg : OrderItemMessage) (env : ProcEnv)
    (h3 : msg.itemId.takeRight 1 = "3")
    (hnt : alreadyTerminal (getItem tbl msg.orderId msg.itemId) = false) :
    (∀ rand : ℚ, shouldSimulateFailure msg.itemId rand = true) ∧
    processRecord tbl msg env = .rejected tbl := by
  have hall : ∀ rand : ℚ, shouldSimulateFailure msg.itemId rand = true := by
    intro rand
    simp [shouldSimulateFailure, h3]
  exact ⟨hall, processRecord_fail hnt (hall env.rand)⟩

/-- C10 witness: the item `o1-item-3` against an empty table. -/
theorem items_ending_three_never_processed_witness :
    (∀ rand : ℚ, shouldSimulateFailure "o1-item-3" rand = true) ∧
    processRecord []
      { orderId := "o1", userId := "u1", itemId := "o1-item-3",
        itemDetail := "Mouse", quantity := 1, price := 5, timestamp := "t0" }
      ⟨1/3, true, "t2"⟩
    = .rejected [] :=
  items_ending_three_never_processed []
    { orderId := "o1", userId := "u1", itemId := "o1-item-3",
      itemDetail := "Mouse", quantity := 1, price := 5, timestamp := "t0" }
    ⟨1/3, true, "t2"⟩ (by decide) (by decide)

/-- C7: retry-then-escalate for an always-failing message.  While at most
`maxReceiveCount` deliveries have failed, the message is still on the
Ordered Work Queue (carrying its failed-delivery count) and the DLQ is
empty — so after the first delivery it is redelivered, for a total of
`maxReceiveCount` redeliveries; from the `(maxReceiveCount + 1)`-th failed
delivery on, the message is gone from the Ordered Work Queue and sits on
the Dead-Letter Queue exactly once, with the original payload intact. -/
theorem retry_then_escalate (m : QueueMessage) (n : ℕ) :
    (n ≤ maxReceiveCount →
      alwaysFailRun m n = { mainQueue := some (m, n), dlq := [] }) ∧
    (maxReceiveCount + 1 ≤ n →
      alwaysFailRun m n = { mainQueue := none, dlq := [m] }) :=
  ⟨alwaysFailRun_le m n, alwaysFailRun_gt m n⟩

/-- C7 witness: three failed deliveries keep the message on the main
queue; the fourth moves it to the DLQ exactly once. -/
theorem retry_then_escalate_witness :
    alwaysFailRun (mkQueueMessage
      { orderId := "o1", itemId := "o1-item-3", itemDetail := some "Mouse",
        quantity := some 1, price := some 5, itemStatus := some PENDING,
        timestamp := some "t0", processedAt := none, failedAt := none } 7 0) 3
      = { mainQueue := some ((mkQueueMessage
          { orderId := "o1", itemId := "o1-item-3", itemDetail := some "Mouse",
            quantity := some 1, price := some 5, itemStatus := some PENDING,
            timestamp := some "t0", processedAt := none, failedAt := none } 7 0), 3),
          dlq := [] } ∧
    alwaysFailRun (mkQueueMessage
      { orderId := "o1", itemId := "o1-item-3", itemDetail := some "Mouse",
        quantity := some 1, price := some 5, itemStatus := some PENDING,
        timestamp := some "t0", processedAt := none, failedAt := none } 7 0) 4
      = { mainQueue := none,
          dlq := [mkQueueMessage
          { orderId := "o1", itemId := "o1-item-3", itemDetail := some "Mouse",
            quantity := some 1, price := some 5, itemStatus := some PENDING,
            timestamp := some "t0", processedAt := none, failedAt := none } 7 0] } :=
  ⟨(retry_then_escalate _ 3).1 (by decide), (retry_then_escalate _ 4).2 (by decide)⟩

/-- C2 (counterexample to the claim as stated): with the order put
succeeding and the items batch write failing, ingestion fails and enqueues
nothing, yet the Order record was written while no Item record exists —
the per-order write is not all-or-nothing. -/
theorem ingestion_not_atomic_counterexample :
    (ingestSucceeded (orderManagerHandler ⟨[], []⟩
        ⟨[⟨"widget", 1, 5⟩], "o1", "u1", "NEW"⟩ "t0" true false
        (fun _ => true) (fun _ => 0)),
     sentMessages (orderManagerHandler ⟨[], []⟩
        ⟨[⟨"widget", 1, 5⟩], "o1", "u1", "NEW"⟩ "t0" true false
        (fun _ => true) (fun _ => 0)),
     (outcomeStore (orderManagerHandler ⟨[], []⟩
        ⟨[⟨"widget", 1, 5⟩], "o1", "u1", "NEW"⟩ "t0" true false
        (fun _ => true) (fun _ => 0))).items,
     ((outcomeStore (orderManagerHandler ⟨[], []⟩
        ⟨[⟨"widget", 1, 5⟩], "o1", "u1", "NEW"⟩ "t0" true false
        (fun _ => true) (fun _ => 0))).orders.map OrderRecord.orderId))
    = (false, [], [], ["o1"]) := by
  decide

/-- C2 (amended): persistence is two separate writes, not one atomic
transaction.  If the order put fails, nothing is written and nothing is
enqueued; if the items batch write fails, ingestion fails with nothing
enqueued but the Order record remains written without its Item records;
when both writes succeed, the order record and every item record are in
the Work Store before any enqueue. -/
theorem ingestion_persistence_amended (store : WorkStore) (e : OrderEvent)
    (now : String) (sendOks : ℕ → Bool) (dateNow : ℕ → ℕ) (batchOk : Bool) :
    (orderManagerHandler store e now false batchOk sendOks dateNow
        = .failed store []) ∧
    (orderManagerHandler store e now true false sendOks dateNow
        = .failed
          { store with
            orders := putOrder store.orders
              (orderRecordOf e.orderId e.userId e.orderItems e.orderStatus now) }
          []) ∧
    ((orderRecordOf e.orderId e.userId e.orderItems e.orderStatus now)
        ∈ (outcomeStore
            (orderManagerHandler store e now true true sendOks dateNow)).orders ∧
     ∀ r ∈ orderItemRecordsOf e.orderId e.orderItems now,
       getItem (outcomeStore
           (orderManagerHandler store e now true true sendOks dateNow)).items
         r.orderId r.itemId = some r) := by
  refine ⟨rfl, rfl, ?_, ?_⟩
  · rw [outcomeStore_persist]
    exact mem_putOrder store.orders _
  · intro r hr
    rw [outcomeStore_persist]
    exact persisted_items_lookup store e now hr

/-- C2 witness: the amended theorem applied to a concrete one-item order;
the PENDING item row is retrievable from the persisted store. -/
theorem ingestion_persistence_amended_witness :
    getItem (outcomeStore (orderManagerHandler ⟨[], []⟩
        ⟨[⟨"widget", 1, 5⟩], "o1", "u1", "NEW"⟩ "t0" true true
        (fun _ => true) (fun _ => 7))).items "o1" "o1-item-0"
      = some
        { orderId := "o1", itemId := "o1-item-0", itemDetail := some "widget",
          quantity := some 1, price := some 5, itemStatus := some PENDING,
          timestamp := some "t0", processedAt := none, failedAt := none } :=
  (ingestion_persistence_amended ⟨[], []⟩
      ⟨[⟨"widget", 1, 5⟩], "o1", "u1", "NEW"⟩ "t0"
      (fun _ => true) (fun _ => 7) true).2.2.2
    { orderId := "o1", itemId := "o1-item-0", itemDetail := some "widget",
      quantity := some 1, price := some 5, itemStatus := some PENDING,
      timestamp := some "t0", processedAt := none, failedAt := none }
    (by decide)

/-- C6: no queue message is sent unless both Work Store writes completed
(a persistence failure leaves the sent list empty); if persistence
succeeded but some send fails, the handler returns no success response;
and the already-written Item records remain in the store with status
PENDING regardless of send outcomes. -/
theorem enqueue_after_persistence (store : WorkStore) (e : OrderEvent)
    (now : String) (putOk batchOk : Bool) (sendOks : ℕ → Bool)
    (dateNow : ℕ → ℕ) :
    ((putOk = false ∨ batchOk = false) →
       sentMessages
         (orderManagerHandler store e now putOk batchOk sendOks dateNow)
         = []) ∧
    ((∃ k, k < e.orderItems.length ∧ sendOks k = false) →
       ingestSucceeded
         (orderManagerHandler store e now true true sendOks dateNow)
         = false) ∧
    (∀ r ∈ orderItemRecordsOf e.orderId e.orderItems now,
       getItem (outcomeStore
           (orderManagerHandler store e now true true sendOks dateNow)).items
         r.orderId r.itemId = some r ∧ r.itemStatus = some PENDING) := by
  refine ⟨?_, ?_, ?_⟩
  · intro h
    rcases h with h | h
    · subst h
      rfl
    · subst h
      cases putOk
      · rfl
      · rfl
  · intro h
    obtain ⟨k, hk, hsend⟩ := h
    rw [orderManagerHandler_persist]
    have hall : ¬ ((orderMessages (orderItemRecordsOf e.orderId e.orderItems
        now) dateNow).enum.all (fun p => sendOks p.1) = true) := by
      rw [enum_all_iff]
      intro hcontra
      have hlen : k < (orderMessages (orderItemRecordsOf e.orderId
          e.orderItems now) dateNow).length := by
        rw [orderMessages_length, orderItemRecordsOf_length]
        exact hk
      have hq := hcontra k hlen
      rw [hsend] at hq
      exact Bool.false_ne_true hq
    rw [if_neg hall]
    rfl
  · intro r hr
    constructor
    · rw [outcomeStore_persist]
      exact persisted_items_lookup store e now hr
    · exact orderItemRecordsOf_status hr

/-- C6 witness: an order whose only send fails — nothing enqueued when
persistence fails, no success response when the send fails, and the
PENDING row still present. -/
theorem enqueue_after_persistence_witness :
    sentMessages (orderManagerHandler ⟨[], []⟩
        ⟨[⟨"widget", 1, 5⟩], "o1", "u1", "NEW"⟩ "t0" false true
        (fun _ => false) (fun _ => 7)) = [] ∧
    ingestSucceeded (orderManagerHandler ⟨[], []⟩
        ⟨[⟨"widget", 1, 5⟩], "o1", "u1", "NEW"⟩ "t0" true true
        (fun _ => false) (fun _ => 7)) = false ∧
    getItem (outcomeStore (orderManagerHandler ⟨[], []⟩
        ⟨[⟨"widget", 1, 5⟩], "o1", "u1", "NEW"⟩ "t0" true true
        (fun _ => false) (fun _ => 7))).items "o1" "o1-item-0"
      = some
        { orderId := "o1", itemId := "o1-item-0", itemDetail := some "widget",
          quantity := some 1, price := some 5, itemStatus := some PENDING,
          timestamp := some "t0", processedAt := none, failedAt := none } :=
  ⟨(enqueue_after_persistence ⟨[], []⟩
      ⟨[⟨"widget", 1, 5⟩], "o1", "u1", "NEW"⟩ "t0" false true
      (fun _ => false) (fun _ => 7)).1 (Or.inl rfl),
   (enqueue_after_persistence ⟨[], []⟩
      ⟨[⟨"widget", 1, 5⟩], "o1", "u1", "NEW"⟩ "t0" true true
      (fun _ => false) (fun _ => 7)).2.1 ⟨0, by decide, rfl⟩,
   ((enqueue_after_persistence ⟨[], []⟩
      ⟨[⟨"widget", 1, 5⟩], "o1", "u1", "NEW"⟩ "t0" true true
      (fun _ => false) (fun _ => 7)).2.2
    { orderId := "o1", itemId := "o1-item-0", itemDetail := some "widget",
      quantity := some 1, price := some 5, itemStatus := some PENDING,
      timestamp := some "t0", processedAt := none, failedAt := none }
    (by decide)).1⟩

/-- C8: the persisted order record of an `n`-item request has
`totalItems = n`, `totalValue` equal to the sum of `price * quantity`
over the items, and the creation timestamp; the `k`-th item record has
`itemId = orderId ++ "-item-" ++ k`, status PENDING, the `k`-th item's
payload, and the same creation timestamp as the order record — the item
identity depends only on `orderId` and the position, so re-ingestion of
the same order yields the same item identities. -/
theorem ingestion_postcondition (e : OrderEvent) (now : String) (k : ℕ)
    (hk : k < e.orderItems.length) :
    (orderRecordOf e.orderId e.userId e.orderItems e.orderStatus
        now).totalItems = e.orderItems.length ∧
    (orderRecordOf e.orderId e.userId e.orderItems e.orderStatus
        now).totalValue
      = (e.orderItems.map fun it => it.price * it.quantity).sum ∧
    (orderRecordOf e.orderId e.userId e.orderItems e.orderStatus
        now).timestamp = now ∧
    (orderItemRecordsOf e.orderId e.orderItems now)[k]? = some
      { orderId := e.orderId,
        itemId := e.orderId ++ "-item-" ++ Nat.repr k,
        itemDetail := some (e.orderItems.get ⟨k, hk⟩).itemDetail,
        quantity := some (e.orderItems.get ⟨k, hk⟩).quantity,
        price := some (e.orderItems.get ⟨k, hk⟩).price,
        itemStatus := some PENDING, timestamp := some now,
        processedAt := none, failedAt := none } := by
  refine ⟨rfl, foldl_price_sum e.orderItems, rfl, ?_⟩
  rw [orderItemRecordsOf_getElem?, List.getElem?_eq_getElem hk]
  rfl

/-- C8 witness: the spec's end-to-end example order. -/
theorem ingestion_postcondition_witness :
    (orderRecordOf "order-001" "u1" [⟨"Laptop", 1, 999.99⟩] "NEW"
        "t0").totalItems = 1 ∧
    (orderRecordOf "order-001" "u1" [⟨"Laptop", 1, 999.99⟩] "NEW"
        "t0").totalValue
      = (([⟨"Laptop", 1, 999.99⟩] : List OrderItem).map
          fun it => it.price * it.quantity).sum ∧
    (orderRecordOf "order-001" "u1" [⟨"Laptop", 1, 999.99⟩] "NEW"
        "t0").timestamp = "t0" ∧
    (orderItemRecordsOf "order-001" [⟨"Laptop", 1, 999.99⟩] "t0")[0]? = some
      { orderId := "order-001",
        itemId := "order-001" ++ "-item-" ++ Nat.repr 0,
        itemDetail := some "Laptop", quantity := some 1,
        price := some 999.99, itemStatus := some PENDING,
        timestamp := some "t0", processedAt := none, failedAt := none } :=
  ingestion_postcondition ⟨[⟨"Laptop", 1, 999.99⟩], "order-001", "u1", "NEW"⟩
    "t0" 0 (by decide)

/-- C9 (counterexample to the claim as stated): two distinct ingestion
calls (the requests differ in `userId`) that observe the same `Date.now()`
millisecond and share an `orderId` produce the very same
`MessageDeduplicationId` for their first enqueue attempt — deduplication
ids are not globally unique per enqueue attempt. -/
theorem dedup_collision_counterexample :
    ((⟨[⟨"widget", 1, 5⟩], "o", "alice", "NEW"⟩ : OrderEvent)
        ≠ (⟨[⟨"widget", 1, 5⟩], "o", "bob", "NEW"⟩ : OrderEvent)) ∧
    (sentMessages (orderManagerHandler ⟨[], []⟩
        ⟨[⟨"widget", 1, 5⟩], "o", "alice", "NEW"⟩ "t0" true true
        (fun _ => true) (fun _ => 7))).map
      QueueMessage.messageDeduplicationId = ["o-item-0-7-0"] ∧
    (sentMessages (orderManagerHandler ⟨[], []⟩
        ⟨[⟨"widget", 1, 5⟩], "o", "bob", "NEW"⟩ "t0" true true
        (fun _ => true) (fun _ => 7))).map
      QueueMessage.messageDeduplicationId = ["o-item-0-7-0"] := by
  refine ⟨by decide, by decide, by decide⟩

/-- C9 (amended): every successfully ingested order sends exactly one
queue message per item, each with `MessageGroupId` equal to the order's
`orderId`, and the deduplication ids are pairwise distinct within the
ingestion call (whatever `Date.now()` values the sends observe); across
ingestion calls distinctness additionally relies on the clock value and is
not guaranteed. -/
theorem enqueue_shape_amended (store : WorkStore) (e : OrderEvent)
    (now : String) (putOk batchOk : Bool) (sendOks : ℕ → Bool)
    (dateNow : ℕ → ℕ) (st : WorkStore) (sent : List QueueMessage)
    (hok : orderManagerHandler store e now putOk batchOk sendOks dateNow
        = .ok st sent) :
    sent.length = e.orderItems.length ∧
    (∀ m ∈ sent, m.messageGroupId = e.orderId) ∧
    (∀ k l : ℕ, ∀ mk ml : QueueMessage, sent[k]? = some mk →
       sent[l]? = some ml → k ≠ l →
       mk.messageDeduplicationId ≠ ml.messageDeduplicationId) := by
  cases putOk with
  | false =>
      rw [orderManagerHandler_put_fail] at hok
      exact absurd hok (by simp)
  | true =>
    cases batchOk with
    | false =>
        rw [orderManagerHandler_batch_fail] at hok
        exact absurd hok (by simp)
    | true =>
      rw [orderManagerHandler_persist] at hok
      by_cases hall : (orderMessages (orderItemRecordsOf e.orderId
          e.orderItems now) dateNow).enum.all (fun p => sendOks p.1) = true
      · rw [if_pos hall] at hok
        rw [IngestOutcome.ok.injEq] at hok
        have hsent : sent = orderMessages
            (orderItemRecordsOf e.orderId e.orderItems now) dateNow := by
          rw [← hok.2]
          exact filter_enum_all _ _ hall
        subst hsent
        refine ⟨?_, ?_, ?_⟩
        · rw [orderMessages_length, orderItemRecordsOf_length]
        · intro m hm
          obtain ⟨r, hr, hg⟩ := orderMessages_groupId hm
          rw [hg]
          exact orderItemRecordsOf_orderId hr
        · intro k l mk ml hmk hml hkl
          rw [orderMessages_getElem?] at hmk hml
          obtain ⟨rk, hrk, hfk⟩ := Option.map_eq_some'.mp hmk
          obtain ⟨rl, hrl, hfl⟩ := Option.map_eq_some'.mp hml
          rw [orderItemRecordsOf_getElem?] at hrk hrl
          obtain ⟨ik, _, hgk⟩ := Option.map_eq_some'.mp hrk
          obtain ⟨il, _, hgl⟩ := Option.map_eq_some'.mp hrl
          intro heq
          rw [← hfk, ← hfl, ← hgk, ← hgl] at heq
          exact hkl (dedup_component_inj e.orderId heq)
      · rw [if_neg hall] at hok
        exact absurd hok (by simp)

/-- C9 witness: the amended theorem applied to a concrete successful
one-item ingestion. -/
theorem enqueue_shape_amended_witness :
    (sentMessages (orderManagerHandler ⟨[], []⟩
        ⟨[⟨"widget", 1, 5⟩], "o", "alice", "NEW"⟩ "t0" true true
        (fun _ => true) (fun _ => 7))).length = 1 ∧
    (∀ m ∈ sentMessages (orderManagerHandler ⟨[], []⟩
        ⟨[⟨"widget", 1, 5⟩], "o", "alice", "NEW"⟩ "t0" true true
        (fun _ => true) (fun _ => 7)), m.messageGroupId = "o") ∧
    (∀ k l : ℕ, ∀ mk ml : QueueMessage,
       (sentMessages (orderManagerHandler ⟨[], []⟩
          ⟨[⟨"widget", 1, 5⟩], "o", "alice", "NEW"⟩ "t0" true true
          (fun _ => true) (fun _ => 7)))[k]? = some mk →
       (sentMessages (orderManagerHandler ⟨[], []⟩
          ⟨[⟨"widget", 1, 5⟩], "o", "alice", "NEW"⟩ "t0" true true
          (fun _ => true) (fun _ => 7)))[l]? = some ml → k ≠ l →
       mk.messageDeduplicationId ≠ ml.messageDeduplicationId) :=
  enqueue_shape_amended ⟨[], []⟩
    ⟨[⟨"widget", 1, 5⟩], "o", "alice", "NEW"⟩ "t0" true true
    (fun _ => true) (fun _ => 7) _ _ rfl
